import Mathlib

/-!
Shallow embedding of the core of `ml_simulator.py` (ml-simulator repository):
configuration values, label generation, classification/regression prediction
synthesis, the metrics engine, the simulation orchestrator, the learning-curve
driver and the difficulty-scan driver.

Modelling conventions:
* Machine floats are modelled by exact rationals `ℚ`.
* The seeded pseudo-random generator (`numpy.random.default_rng(seed)`) is
  modelled by an abstract `RngModel`: a family of draw streams indexed by the
  seed (`Option ℕ`, mirroring the optional `random_state`).  Each primitive
  draw (`uniform` for `rng.random`, `normal` for standard-normal draws,
  `integers` for `rng.integers`, `choice` for `rng.choice(p=...)`) is a pure
  function of the seed and a draw index, which captures exactly the property
  the code relies on: every draw is determined by `random_state` alone.
* The transcendental functions `np.exp`, `np.log`, `np.sqrt` are modelled by
  explicit function parameters `expf`, `logf`, `sqrtf : ℚ → ℚ`; where a
  property needs a fact about the real exponential (positivity) it is taken
  as a hypothesis `∀ x, 0 < expf x`.
* `np.nan` results (undefined AUC) are modelled by an explicit sentinel
  (`MVal.nan` / `Option.none`), fallible code returns `Except String`.
-/

namespace MLSim

/-- Task kinds, from `class TaskType(Enum)`. -/
inductive TaskType where
  | binary
  | multiclass
  | regression
deriving DecidableEq, Repr

/-- `@dataclass TaskConfig` of `ml_simulator.py`. -/
structure TaskConfig where
  task_type : TaskType
  num_samples : ℕ := 10000
  n_classes : ℕ := 2
  label_distribution : Option (List ℚ) := none
  random_state : Option ℕ := none
deriving DecidableEq, Repr

/-- `@dataclass DifficultyConfig` of `ml_simulator.py` (defaults included). -/
structure DifficultyConfig where
  separability : ℚ := 3/5
  label_noise : ℚ := 1/10
  feature_noise : ℚ := 1/5
  nonlinearity : ℚ := 7/10
  spurious_correlation : ℚ := 3/10
deriving DecidableEq, Repr

/-- `@dataclass RegressionConfig` of `ml_simulator.py`. -/
structure RegressionConfig where
  function_complexity : ℚ := 4/5
  noise_level : ℚ := 1/5
  heteroscedastic : Bool := true
deriving DecidableEq, Repr

/-- `@dataclass ModelProfile` of `ml_simulator.py` (defaults included). -/
structure ModelProfile where
  bias : ℚ := 1/2
  variance : ℚ := 3/10
  capacity : ℚ := 7/10
  noise_tolerance : ℚ := 1/2
  separability_sensitivity : ℚ := 1
  nonlinearity_sensitivity : ℚ := 1
  noise_sensitivity : ℚ := 1
  supported_tasks : List String := ["binary", "multiclass", "regression"]
deriving DecidableEq, Repr

/-- `PREDEFINED_MODEL_PROFILES`: the fixed named-profile table. -/
def PREDEFINED_MODEL_PROFILES : List (String × ModelProfile) :=
  [ ("svm", { bias := 1/2, variance := 1/5, capacity := 3/5, noise_tolerance := 2/5,
              separability_sensitivity := 6/5, nonlinearity_sensitivity := 3/10,
              supported_tasks := ["binary"] }),
    ("rf", { bias := 3/10, variance := 2/5, capacity := 7/10, noise_tolerance := 4/5,
             separability_sensitivity := 4/5, nonlinearity_sensitivity := 3/5 }),
    ("lgbm", { bias := 3/10, variance := 3/10, capacity := 4/5, noise_tolerance := 3/5,
               separability_sensitivity := 9/10, nonlinearity_sensitivity := 9/10,
               noise_sensitivity := 7/10 }),
    ("dnn", { bias := 1/5, variance := 7/10, capacity := 19/20, noise_tolerance := 1/2,
              separability_sensitivity := 1, nonlinearity_sensitivity := 1 }),
    ("cnn", { bias := 3/10, variance := 1/2, capacity := 17/20, noise_tolerance := 3/5,
              separability_sensitivity := 4/5, nonlinearity_sensitivity := 9/10 }),
    ("rnn", { bias := 2/5, variance := 3/5, capacity := 4/5, noise_tolerance := 1/2,
              separability_sensitivity := 9/10, nonlinearity_sensitivity := 4/5 }),
    ("transformer", { bias := 1/5, variance := 9/10, capacity := 49/50, noise_tolerance := 2/5,
                      separability_sensitivity := 1, nonlinearity_sensitivity := 1 }),
    ("logreg", { bias := 1/2, variance := 1/10, capacity := 1/2, noise_tolerance := 1/2,
                 separability_sensitivity := 1, nonlinearity_sensitivity := 1/10,
                 supported_tasks := ["binary", "multiclass"] }),
    ("xgboost", { bias := 3/10, variance := 3/10, capacity := 4/5, noise_tolerance := 7/10,
                  separability_sensitivity := 9/10, nonlinearity_sensitivity := 9/10 }),
    ("catboost", { bias := 3/10, variance := 1/4, capacity := 39/50, noise_tolerance := 3/4,
                   separability_sensitivity := 17/20, nonlinearity_sensitivity := 17/20 }) ]

/-- Abstract model of `numpy.random.default_rng(seed)`: every draw is a pure
function of the seed (`Option ℕ`, as `random_state` may be absent) and a draw
index, so a draw stream is derived solely from `random_state`. -/
structure RngModel where
  uniform : Option ℕ → ℕ → ℚ
  normal : Option ℕ → ℕ → ℚ
  integers : Option ℕ → ℕ → ℕ → ℕ
  choice : Option ℕ → List ℚ → ℕ → ℕ

/-- Labels produced by `generate_labels`: continuous targets for regression,
class indices for classification (one `numpy` array in the source, a sum
type here). -/
inductive Labels where
  | reals : List ℚ → Labels
  | classes : List ℕ → Labels
deriving DecidableEq, Repr

/-- `generate_labels(task_config)`.  The explicit `raise ValueError` on a
`label_distribution` length mismatch becomes `Except.error`; otherwise the
distribution is renormalized by its sum and labels are drawn from the
resulting categorical distribution. -/
def generate_labels (m : RngModel) (tc : TaskConfig) : Except String Labels :=
  if tc.task_type = TaskType.regression then
    .ok (.reals ((List.range tc.num_samples).map fun i => m.normal tc.random_state i))
  else
    match tc.label_distribution with
    | none =>
        .ok (.classes ((List.range tc.num_samples).map fun i =>
          m.integers tc.random_state tc.n_classes i))
    | some dist =>
        if dist.length ≠ tc.n_classes then
          .error "label_distribution length must equal n_classes"
        else
          let class_probs := dist.map (· / dist.sum)
          .ok (.classes ((List.range tc.num_samples).map fun i =>
            m.choice tc.random_state class_probs i))

/-- The learned signal `mu` for one (sample, class) cell in
`generate_classification_predictions`: the true-class branch
(`separability * capacity`, damped when `nonlinearity > 0.5`), the
other-class branch (`-separability * 0.5`), and the final
`if noisy_mask[i]: mu *= 0.1` applied to whichever branch was taken. -/
def muSignal (dc : DifficultyConfig) (mp : ModelProfile)
    («isTrue» noisy : Bool) : ℚ :=
  let mu :=
    if «isTrue» then
      let mu := dc.separability * mp.capacity
      if dc.nonlinearity > 1/2 then
        mu * (1 - mp.nonlinearity_sensitivity * (dc.nonlinearity - 1/2))
      else mu
    else -dc.separability * (1/2)
  if noisy then mu * (1/10) else mu

/-- Whether sample `i` is marked unlearnable:
`noisy_mask = rng.random(n_samples) < difficulty.label_noise`. -/
def noisyAt (m : RngModel) (seed : Option ℕ) (dc : DifficultyConfig) (i : ℕ) : Bool :=
  m.uniform seed i < dc.label_noise

/-- One row of the logit matrix of `generate_classification_predictions`:
`logits[i, c] = mu + eps_sample + eps_model + bias_effect` for `c < k`. -/
def classRow (m : RngModel) (seed : Option ℕ) (dc : DifficultyConfig)
    (mp : ModelProfile) (k i t : ℕ) (noisy : Bool) : List ℚ :=
  (List.range k).map fun c =>
    let mu := muSignal dc mp (c = t) noisy
    let eps_sample := dc.feature_noise * m.normal seed (2 * (i * k + c))
    let eps_model := mp.variance * m.normal seed (2 * (i * k + c) + 1)
    let bias_effect := if c ≠ t then mp.bias else 0
    mu + eps_sample + eps_model + bias_effect

/-- The logit matrix of `generate_classification_predictions` (everything
before the sigmoid/softmax conversion). -/
def genClassLogits (m : RngModel) (y_true : List ℕ) (dc : DifficultyConfig)
    (mp : ModelProfile) (tc : TaskConfig) : List (List ℚ) :=
  (List.range y_true.length).map fun i =>
    classRow m tc.random_state dc mp tc.n_classes i (y_true.getD i 0)
      (noisyAt m tc.random_state dc i)

/-- Probability conversion of `generate_classification_predictions`:
sigmoid of the class-1 score for two classes, numerically-stable softmax
otherwise.  `expf` models `np.exp`. -/
def toProb (expf : ℚ → ℚ) (k : ℕ) (logits : List (List ℚ)) : List (List ℚ) :=
  if k = 2 then
    logits.map fun row =>
      let s := row.getD 1 0
      let prob_pos := 1 / (1 + expf (-s))
      [1 - prob_pos, prob_pos]
  else
    logits.map fun row =>
      let mx := row.foldl max (row.headD 0)
      let exps := row.map fun x => expf (x - mx)
      exps.map (· / exps.sum)

/-- `generate_classification_predictions(y_true, difficulty, model_profile,
task_config)`. -/
def generate_classification_predictions (m : RngModel) (expf : ℚ → ℚ)
    (y_true : List ℕ) (dc : DifficultyConfig) (mp : ModelProfile)
    (tc : TaskConfig) : List (List ℚ) :=
  toProb expf tc.n_classes (genClassLogits m y_true dc mp tc)

/-- `np.argsort(xs)` ascending (stable: ties keep index order). -/
def argsortAsc (xs : List ℚ) : List ℕ :=
  List.insertionSort (fun i j => xs.getD i 0 ≤ xs.getD j 0) (List.range xs.length)

/-- `np.argsort(-xs)`: descending argsort (stable). -/
def argsortDesc (xs : List ℚ) : List ℕ :=
  List.insertionSort (fun i j => xs.getD j 0 ≤ xs.getD i 0) (List.range xs.length)

/-- `np.argmax` over one row: index of the first maximal entry. -/
def argmax (l : List ℚ) : ℕ :=
  (l.enum.foldl (fun best p => if p.2 > best.2 then p else best) (0, l.headD 0)).1

/-- `np.cumsum`. -/
def cumsum (l : List ℚ) : List ℚ :=
  (l.scanl (· + ·) 0).tail

/-- `np.clip(x, lo, hi)`. -/
def clip (x lo hi : ℚ) : ℚ :=
  min (max x lo) hi

/-- `np.trapz` over a list of `(y, x)` points (trapezoidal rule). -/
def trapz : List (ℚ × ℚ) → ℚ
  | (y0, x0) :: (y1, x1) :: rest => (x1 - x0) * (y1 + y0) / 2 + trapz ((y1, x1) :: rest)
  | _ => 0

/-- `_precision_recall_f1_binary`: precision, recall, F1 from the 2×2
confusion counts with the `1e-12` smoothing epsilon. -/
def prf_binary (y_true y_pred : List ℕ) : ℚ × ℚ × ℚ :=
  let pairs := y_true.zip y_pred
  let tp : ℚ := ((pairs.filter fun p => p.1 == 1 && p.2 == 1).length : ℚ)
  let fp : ℚ := ((pairs.filter fun p => p.1 == 0 && p.2 == 1).length : ℚ)
  let fn : ℚ := ((pairs.filter fun p => p.1 == 1 && p.2 == 0).length : ℚ)
  let precision := tp / (tp + fp + 1/10^12)
  let recl := tp / (tp + fn + 1/10^12)
  let f1 := 2 * precision * recl / (precision + recl + 1/10^12)
  (precision, recl, f1)

/-- `_binary_pr_auc`: trapezoidal area of the cumulative precision/recall
curves after sorting by descending score, clipped to `[0, 1]`. -/
def binary_pr_auc (y_true : List ℕ) (y_score : List ℚ) : ℚ :=
  let order := argsortDesc y_score
  let y_sorted := order.map fun i => ((y_true.getD i 0 : ℕ) : ℚ)
  let tp_cumsum := cumsum y_sorted
  let precision_curve := (tp_cumsum.zip (List.range y_sorted.length)).map
    fun p => p.1 / ((p.2 : ℚ) + 1)
  let recall_curve := tp_cumsum.map fun t => t / (y_sorted.sum + 1/10^12)
  clip (trapz (precision_curve.zip recall_curve)) 0 1

/-- `_log_loss_binary` (`logf` models `np.log`; probabilities clipped to
`[1e-15, 1 - 1e-15]`). -/
def log_loss_binary (logf : ℚ → ℚ) (y_true : List ℕ) (y_prob : List ℚ) : ℚ :=
  let terms := (y_true.zip y_prob).map fun p =>
    let q := clip p.2 (1/10^15) (1 - 1/10^15)
    (p.1 : ℚ) * logf q + (1 - (p.1 : ℚ)) * logf (1 - q)
  Neg.neg (terms.sum / (y_true.length : ℚ))

/-- Sum of the one-based ascending-score ranks of the positive samples
(`ranks = np.argsort(np.argsort(y_score)) + 1`; for a permutation, the
inner double argsort is the position in the sorted order, i.e. `indexOf`). -/
def rankSumPositives (y_true : List ℕ) (y_score : List ℚ) : ℚ :=
  (((List.range y_true.length).filter fun i => y_true.getD i 0 == 1).map
    fun i => (((argsortAsc y_score).indexOf i : ℕ) + 1 : ℚ)).sum

/-- `_binary_auc`: ROC-AUC by the rank-sum identity, `none` (the `np.nan`
sentinel) when either class is absent. -/
def binary_auc (y_true : List ℕ) (y_score : List ℚ) : Option ℚ :=
  let n_pos := (y_true.filter (· == 1)).length
  let n_neg := (y_true.filter (· == 0)).length
  if n_pos = 0 ∨ n_neg = 0 then none
  else
    let order := argsortAsc y_score
    let sum_ranks_pos : ℚ :=
      (((List.range y_true.length).filter fun i => y_true.getD i 0 == 1).map
        fun i => ((order.indexOf i + 1 : ℕ) : ℚ)).sum
    some ((sum_ranks_pos - (n_pos : ℚ) * ((n_pos : ℚ) + 1) / 2)
      / ((n_pos : ℚ) * (n_neg : ℚ)))

/-- `_precision_recall_f1_multiclass`: per-class one-vs-rest confusion
counts, macro (unweighted mean) and support-weighted averages; returns
`(macroP, macroR, macroF1, weightedP, weightedR, weightedF1)`. -/
def prf_multiclass (y_true y_pred : List ℕ) (n_classes : ℕ) :
    ℚ × ℚ × ℚ × ℚ × ℚ × ℚ :=
  let pairs := y_true.zip y_pred
  let stats := (List.range n_classes).map fun c =>
    let tp : ℚ := ((pairs.filter fun p => p.1 == c && p.2 == c).length : ℚ)
    let fp : ℚ := ((pairs.filter fun p => p.1 != c && p.2 == c).length : ℚ)
    let fn : ℚ := ((pairs.filter fun p => p.1 == c && p.2 != c).length : ℚ)
    let support : ℚ := ((y_true.filter (· == c)).length : ℚ)
    let precision := tp / (tp + fp + 1/10^12)
    let recl := tp / (tp + fn + 1/10^12)
    let f1 := 2 * precision * recl / (precision + recl + 1/10^12)
    (precision, recl, f1, support)
  let ps := stats.map fun s => s.1
  let rs := stats.map fun s => s.2.1
  let fs := stats.map fun s => s.2.2.1
  let sup := stats.map fun s => s.2.2.2
  let k : ℚ := (n_classes : ℚ)
  let total := sup.sum
  let wavg := fun (xs : List ℚ) => ((xs.zip sup).map fun p => p.1 * p.2).sum / total
  (ps.sum / k, rs.sum / k, fs.sum / k, wavg ps, wavg rs, wavg fs)

/-- `_top_k_accuracy`: fraction of samples whose true label is among the
`k` highest-probability classes of its row. -/
def top_k_accuracy (y_true : List ℕ) (y_prob : List (List ℚ)) (k : ℕ) : ℚ :=
  ((((y_true.zip y_prob).filter fun p =>
    ((argsortDesc p.2).take k).contains p.1).length : ℕ) : ℚ) / (y_true.length : ℚ)

/-- `_log_loss_multiclass`: one-hot log-loss with probabilities clipped to
`[1e-15, 1]`. -/
def log_loss_multiclass (logf : ℚ → ℚ) (y_true : List ℕ)
    (y_prob : List (List ℚ)) : ℚ :=
  let terms := (y_true.zip y_prob).map fun p =>
    logf (clip (p.2.getD p.1 0) (1/10^15) 1)
  Neg.neg (terms.sum / (y_true.length : ℚ))

/-- `_multiclass_auc_ovr_macro`: macro mean of the per-class one-vs-rest
binary AUCs, skipping undefined ones; `none` when all are undefined. -/
def multiclass_auc_ovr_macro (y_true : List ℕ) (y_prob : List (List ℚ))
    (n_classes : ℕ) : Option ℚ :=
  let aucs := (List.range n_classes).filterMap fun c =>
    binary_auc (y_true.map fun t => if t = c then 1 else 0)
      (y_prob.map fun row => row.getD c 0)
  if aucs.isEmpty then none else some (aucs.sum / (aucs.length : ℚ))

/-- A metric value: a number, the `np.nan` sentinel, or a string tag. -/
inductive MVal where
  | num : ℚ → MVal
  | nan : MVal
  | str : String → MVal
deriving DecidableEq, Repr

/-- A metrics dictionary (`Dict[str, float]` plus the task-type tag),
keys in insertion order. -/
abbrev MetricsRecord := List (String × MVal)

/-- `compute_regression_metrics` (`sqrtf` models `np.sqrt`). -/
def compute_regression_metrics (sqrtf : ℚ → ℚ) (y_true y_pred : List ℚ) :
    MetricsRecord :=
  let residuals := (y_true.zip y_pred).map fun p => p.1 - p.2
  let n : ℚ := (y_true.length : ℚ)
  let rmse := sqrtf ((residuals.map (· ^ 2)).sum / n)
  let mae := (residuals.map (|·|)).sum / n
  let ss_res := (residuals.map (· ^ 2)).sum
  let ss_tot := (y_true.map fun y => (y - y_true.sum / n) ^ 2).sum
  let r2 := 1 - ss_res / (ss_tot + 1/10^12)
  [("rmse", .num rmse), ("mae", .num mae), ("r2", .num r2)]

/-- `compute_classification_metrics`: binary metrics for `n_classes == 2`,
multiclass metrics for every other class count (no class-count validation
is performed). -/
def compute_classification_metrics (logf : ℚ → ℚ) (y_true : List ℕ)
    (y_prob : List (List ℚ)) (n_classes : ℕ) : MetricsRecord :=
  let y_pred := y_prob.map argmax
  let accuracy : ℚ :=
    (((y_true.zip y_pred).filter fun p => p.1 == p.2).length : ℚ) / (y_true.length : ℚ)
  if n_classes = 2 then
    let scores := y_prob.map fun r => r.getD 1 0
    let roc := binary_auc y_true scores
    let prf := prf_binary y_true y_pred
    [("task_type", .str "binary"), ("accuracy", .num accuracy),
     ("precision", .num prf.1), ("recall", .num prf.2.1), ("f1", .num prf.2.2),
     ("roc_auc", match roc with | some a => .num a | none => .nan),
     ("pr_auc", .num (binary_pr_auc y_true scores)),
     ("logloss", .num (log_loss_binary logf y_true scores))]
  else
    let prf := prf_multiclass y_true y_pred n_classes
    [("task_type", .str "multiclass"), ("accuracy", .num accuracy),
     ("macro_f1", .num prf.2.2.1), ("weighted_f1", .num prf.2.2.2.2.2),
     ("logloss", .num (log_loss_multiclass logf y_true y_prob)),
     ("top_3_accuracy", .num (top_k_accuracy y_true y_prob 3))]

/-- `generate_regression_predictions` (the difficulty argument is accepted
but unused by the formulas, as in the source). -/
def generate_regression_predictions (m : RngModel) (y_true : List ℚ)
    (dc : DifficultyConfig) (mp : ModelProfile) (tc : TaskConfig)
    (rc : RegressionConfig) : List ℚ :=
  let n := y_true.length
  let approximation_quality := mp.capacity * (1 - rc.function_complexity * (1/2))
  (List.range n).map fun i =>
    let y := y_true.getD i 0
    let signal := y * approximation_quality
    let noise_std :=
      if rc.heteroscedastic then rc.noise_level * (1 + (1/2) * |y|) else rc.noise_level
    let noise := noise_std * m.normal tc.random_state i
    let model_noise := (mp.variance * (1/2)) * m.normal tc.random_state (n + i)
    signal + noise + model_noise

/-- The orchestrator state (`class MLSimulator` after `__init__`): resolved
profile and the labels generated once at construction. -/
structure MLSimulator where
  task_config : TaskConfig
  difficulty : DifficultyConfig
  model_profile : ModelProfile
  reg_config : RegressionConfig
  y_true : Labels
deriving DecidableEq, Repr

/-- Resolution of the string-or-profile model argument against
`PREDEFINED_MODEL_PROFILES` (unknown names fail). -/
def resolveProfile (mp : String ⊕ ModelProfile) : Except String ModelProfile :=
  match mp with
  | .inr p => .ok p
  | .inl name =>
      match PREDEFINED_MODEL_PROFILES.lookup name with
      | some p => .ok p
      | none => .error ("unknown model: " ++ name)

/-- `MLSimulator.__init__`: resolve the profile, default the regression
config, generate labels once. -/
def mkMLSimulator (m : RngModel) (tc : TaskConfig) (dc : DifficultyConfig)
    (mp : String ⊕ ModelProfile) (rc : Option RegressionConfig) :
    Except String MLSimulator := do
  let profile ← resolveProfile mp
  let y ← generate_labels m tc
  pure ⟨tc, dc, profile, rc.getD {}, y⟩

/-- `MLSimulator.simulate()`: dispatch on the task kind to the matching
synthesis branch and metrics computation.  The two mismatch cases are
unreachable for states built by `mkMLSimulator`. -/
def simulate (m : RngModel) (expf logf sqrtf : ℚ → ℚ) (s : MLSimulator) :
    MetricsRecord :=
  match s.task_config.task_type, s.y_true with
  | .regression, .reals y =>
      compute_regression_metrics sqrtf y
        (generate_regression_predictions m y s.difficulty s.model_profile
          s.task_config s.reg_config)
  | .regression, .classes _ => []
  | _, .classes y =>
      compute_classification_metrics logf y
        (generate_classification_predictions m expf y s.difficulty
          s.model_profile s.task_config)
        s.task_config.n_classes
  | _, .reals _ => []

/-- Normalized training-fraction progress `t` of `simulate_learning_curve`:
`(s - s_min) / (s_max - s_min)` when the sweep has distinct endpoints,
else `1.0`. -/
def listMax (l : List ℚ) : ℚ := l.foldl max (l.headD 0)

/-- Minimum of a sweep (`train_sizes.min()`). -/
def listMin (l : List ℚ) : ℚ := l.foldl min (l.headD 0)

/-- The normalized progress `t` for one training fraction `s`. -/
def tOf (sizes : List ℚ) (s : ℚ) : ℚ :=
  if listMin sizes < listMax sizes then
    (s - listMin sizes) / (listMax sizes - listMin sizes)
  else 1

/-- The noiseless exponential-saturation accuracy of
`simulate_learning_curve`:
`base_acc = acc_10 + (acc_100 - acc_10) * (1 - np.exp(-alpha * t))`. -/
def base_acc (expf : ℚ → ℚ) (acc_10 acc_100 alpha t : ℚ) : ℚ :=
  acc_10 + (acc_100 - acc_10) * (1 - expf (-(alpha * t)))

/-- Overlay of one named difficulty field
(`DifficultyConfig(**{**base_difficulty.__dict__, difficulty_param: value})`
in `scan_difficulty`); an unknown field name is an error, as the keyword
construction would raise. -/
def overlayDifficulty (base : DifficultyConfig) (param : String) (v : ℚ) :
    Except String DifficultyConfig :=
  if param = "separability" then .ok { base with separability := v }
  else if param = "label_noise" then .ok { base with label_noise := v }
  else if param = "feature_noise" then .ok { base with feature_noise := v }
  else if param = "nonlinearity" then .ok { base with nonlinearity := v }
  else if param = "spurious_correlation" then .ok { base with spurious_correlation := v }
  else .error ("unknown difficulty field: " ++ param)

/-- The per-run task configuration of `scan_difficulty`:
`random_state = None if base is None else base + run`. -/
def withSeed (tc : TaskConfig) (run : ℕ) : TaskConfig :=
  { tc with random_state := tc.random_state.map (· + run) }

/-- Error-propagating map: the `Except` plumbing of a Python loop whose body
may raise. -/
def exceptMap {α β : Type} (f : α → Except String β) :
    List α → Except String (List β)
  | [] => .ok []
  | a :: as =>
      match f a with
      | .error e => .error e
      | .ok b =>
          match exceptMap f as with
          | .error e => .error e
          | .ok bs => .ok (b :: bs)

/-- Numeric column names of a metrics record (pandas aggregation keeps the
numeric columns; the string-valued tag is not aggregated). -/
def numericNames (r : MetricsRecord) : List String :=
  r.filterMap fun p => match p.2 with | .str _ => none | _ => some p.1

/-- pandas `mean` of one column: NaN entries skipped, `none` when no value
remains. -/
def colMean (vals : List MVal) : Option ℚ :=
  let nums := vals.filterMap fun v => match v with | .num q => some q | _ => none
  if nums.isEmpty then none else some (nums.sum / (nums.length : ℚ))

/-- pandas `std` of one column (`ddof = 1`): NaN entries skipped, `none`
(NaN) when fewer than two values remain. -/
def colStd (sqrtf : ℚ → ℚ) (vals : List MVal) : Option ℚ :=
  let nums := vals.filterMap fun v => match v with | .num q => some q | _ => none
  if nums.length < 2 then none
  else
    let mean := nums.sum / (nums.length : ℚ)
    some (sqrtf ((nums.map fun x => (x - mean) ^ 2).sum / ((nums.length : ℚ) - 1)))

/-- One output row of `scan_difficulty`: the swept value, the `_mean`
columns and the `_std` columns. -/
abbrev ScanRow := ℚ × List (String × Option ℚ) × List (String × Option ℚ)

/-- The `groupby(difficulty_param).mean()/.std()` aggregation of
`scan_difficulty`, grouped by swept value (pandas groups are the distinct
keys, sorted ascending), one `<metric>_mean` / `<metric>_std` column per
numeric metric column. -/
def aggScan (sqrtf : ℚ → ℚ) (rows : List (ℚ × ℕ × MetricsRecord)) :
    List ScanRow :=
  let cols := match rows.head? with | some r => numericNames r.2.2 | none => []
  let keys := List.insertionSort (· ≤ ·) (rows.map (·.1)).dedup
  keys.map fun v =>
    let group := rows.filter fun r => r.1 == v
    let colVals := fun c => group.map fun r => (r.2.2.lookup c).getD .nan
    (v, cols.map fun c => (c ++ "_mean", colMean (colVals c)),
        cols.map fun c => (c ++ "_std", colStd sqrtf (colVals c)))

/-- `scan_difficulty`: for each swept value, overlay the difficulty field,
run `n_runs` repetitions (seed incremented per run), tag each record with
the value and the run index, then aggregate mean/std per value. -/
def scan_difficulty (m : RngModel) (expf logf sqrtf : ℚ → ℚ)
    (tc : TaskConfig) (model_name : String) (difficulty_param : String)
    (difficulty_values : List ℚ) (base_difficulty : DifficultyConfig)
    (n_runs : ℕ) : Except String (List ScanRow) := do
  let recs ← exceptMap (fun v => do
      let dc ← overlayDifficulty base_difficulty difficulty_param v
      exceptMap (fun run => do
          let sim ← mkMLSimulator m (withSeed tc run) dc (.inl model_name) none
          pure (v, run, simulate m expf logf sqrtf sim)) (List.range n_runs))
    difficulty_values
  pure (aggScan sqrtf recs.flatten)

/-!  ## Concrete instances used by counterexamples and witnesses  -/

/-- A degenerate draw model: every draw is zero. -/
def mZero : RngModel :=
  ⟨fun _ _ => 0, fun _ _ => 0, fun _ _ _ => 0, fun _ _ _ => 0⟩

/-- A concrete positive model of `np.exp` (used only at finitely many
points by concrete evaluations). -/
def expfC2 : ℚ → ℚ := fun x => 1 + x ^ 2

/-- A binary one-sample task with an explicit seed. -/
def tcC1 : TaskConfig :=
  { task_type := .binary, num_samples := 1, n_classes := 2, random_state := some 0 }

/-- A difficulty with full label noise and no other noise (every sample is
marked unlearnable). -/
def dcC1 : DifficultyConfig :=
  { separability := 3/5, label_noise := 1, feature_noise := 0,
    nonlinearity := 0, spurious_correlation := 0 }

/-- A noise-free difficulty (no sample is marked unlearnable). -/
def dcC2 : DifficultyConfig :=
  { separability := 3/5, label_noise := 0, feature_noise := 0,
    nonlinearity := 0, spurious_correlation := 0 }

/-- A concrete positive model of `np.exp` pinning the value at `-3`. -/
def expfC3 : ℚ → ℚ := fun x => if x = -3 then 1/20 else 1

/-- A three-class one-sample multiclass task. -/
def tcC4 : TaskConfig :=
  { task_type := .multiclass, num_samples := 1, n_classes := 3, random_state := some 0 }

/-- A binary task with an explicit two-entry label distribution. -/
def tcC8 : TaskConfig :=
  { task_type := .binary, num_samples := 1, n_classes := 2,
    label_distribution := some [1/2, 1/2], random_state := some 0 }

/-- The orchestrator state built from `tcC1` with the named profile `svm`
(total projection of the fallible constructor). -/
def sC5 : MLSimulator :=
  (mkMLSimulator mZero tcC1 {} (.inl "svm") none).toOption.getD
    ⟨tcC1, {}, {}, {}, .classes []⟩

/-- The numeric metric names of the record that `simulate` produces for a
task configuration: the regression names, the binary names, or the
multiclass names (the string-valued task-type tag is not numeric). -/
def metricNumericNames (tc : TaskConfig) : List String :=
  match tc.task_type with
  | .regression => ["rmse", "mae", "r2"]
  | _ =>
      if tc.n_classes = 2 then
        ["accuracy", "precision", "recall", "f1", "roc_auc", "pr_auc", "logloss"]
      else
        ["accuracy", "macro_f1", "weighted_f1", "logloss", "top_3_accuracy"]

/-- A concrete difficulty scan: two separability values, one run each, on
the seeded binary task (total projection of the fallible driver). -/
def scanC9 : List ScanRow :=
  (scan_difficulty mZero (fun _ => 1) (fun _ => 0) (fun _ => 0) tcC1 "svm"
    "separability" [1, 2] {} 1).toOption.getD []

/-!  ## Helper lemmas  -/

/-- Sum of an elementwise division. -/
theorem sum_map_div (l : List ℚ) (b : ℚ) : (l.map (· / b)).sum = l.sum / b := by
  induction l with
  | nil => simp
  | cons x xs ih => simp [ih, add_div]

/-- Every row of the logit matrix has `n_classes` entries. -/
theorem genClassLogits_row_length (m : RngModel) (y_true : List ℕ)
    (dc : DifficultyConfig) (mp : ModelProfile) (tc : TaskConfig) :
    ∀ r ∈ genClassLogits m y_true dc mp tc, r.length = tc.n_classes := by
  intro r hr
  unfold genClassLogits at hr
  obtain ⟨i, _, rfl⟩ := List.mem_map.1 hr
  simp [classRow]

/-!  ## Claims  -/

/-- C1, counterexample: with every sample marked unlearnable and all noise
draws zero, the non-true-class logit of the single sample is *not* the
unchanged base signal `-separability * 0.5` plus the bias penalty: the code
multiplies the non-true-class signal by 0.1 as well. -/
theorem C1_counterexample :
    ((genClassLogits mZero [0] dcC1 {} tcC1).getD 0 []).getD 1 0 ≠
      -dcC1.separability * (1/2) + ({} : ModelProfile).bias := by
  norm_num [genClassLogits, classRow, muSignal, noisyAt, mZero, dcC1, tcC1,
    List.range_succ, List.getD]

/-- C1, amended: for a sample marked unlearnable, the signal `mu` of
*every* class is multiplied by 0.1 — the non-true-class signal becomes
`(-separability * 0.5) * 0.1`, and the true-class signal is 0.1 times its
non-noisy value. -/
theorem C1_amended (dc : DifficultyConfig) (mp : ModelProfile) :
    muSignal dc mp false true = -dc.separability * (1/2) * (1/10) ∧
    muSignal dc mp true true = muSignal dc mp true false * (1/10) :=
  ⟨rfl, rfl⟩

/-- C2, counterexample: for a binary sample whose true label is 0, the
positive-class probability is the sigmoid of the class-1 logit, which is
*not* the sigmoid of that sample's true-class (class-0) logit. -/
theorem C2_counterexample :
    ((generate_classification_predictions mZero expfC2 [0] dcC2 {} tcC1).getD 0 []).getD 1 0 ≠
      1 / (1 + expfC2 (-(((genClassLogits mZero [0] dcC2 {} tcC1).getD 0 []).getD 0 0))) := by
  norm_num [generate_classification_predictions, toProb, genClassLogits, classRow,
    muSignal, noisyAt, mZero, dcC2, tcC1, expfC2, List.range_succ, List.getD]

/-- C2, amended: with exactly two classes, every sample's probability row is
`[1 - p, p]` where `p` is the logistic transform of that sample's *class-1*
(positive-class) logit — not of its true-class logit. -/
theorem C2_amended (m : RngModel) (expf : ℚ → ℚ) (y_true : List ℕ)
    (dc : DifficultyConfig) (mp : ModelProfile) (tc : TaskConfig)
    (h2 : tc.n_classes = 2) (i : ℕ) (hi : i < y_true.length) :
    (generate_classification_predictions m expf y_true dc mp tc).getD i [] =
      [1 - 1 / (1 + expf (-(((genClassLogits m y_true dc mp tc).getD i []).getD 1 0))),
       1 / (1 + expf (-(((genClassLogits m y_true dc mp tc).getD i []).getD 1 0)))] := by
  have hlen : i < (genClassLogits m y_true dc mp tc).length := by
    simpa [genClassLogits] using hi
  unfold generate_classification_predictions toProb
  rw [h2]
  simp [List.getD, List.getElem?_map, List.getElem?_eq_getElem hlen]

/-- C2, witness: the amended row shape evaluated on a concrete binary
configuration. -/
theorem C2_witness :
    (generate_classification_predictions mZero expfC2 [0] dcC2 {} tcC1).getD 0 [] =
      [1 - 1 / (1 + expfC2 (-(((genClassLogits mZero [0] dcC2 {} tcC1).getD 0 []).getD 1 0))),
       1 / (1 + expfC2 (-(((genClassLogits mZero [0] dcC2 {} tcC1).getD 0 []).getD 1 0)))] :=
  C2_amended mZero expfC2 [0] dcC2 {} tcC1 rfl 0 (by norm_num)

/-- C3, counterexample: with the sweep `[0.1, 1.0]`, `alpha = 3` and the
defaults `acc_10 = 0.5`, `acc_100 = 0.9`, the noiseless base accuracy at the
maximum fraction is `0.5 + 0.4·(1 - e^{-3})`, not `acc_100` (here with an
exponential model taking the positive value `1/20` at `-3`). -/
theorem C3_counterexample :
    base_acc expfC3 (1/2) (9/10) 3 (tOf [1/10, 1] (listMax [1/10, 1])) ≠ 9/10 := by
  norm_num [base_acc, expfC3, tOf, listMax, listMin]

/-- C3, amended: at the maximum requested training fraction the normalized
progress is `t = 1` and the noiseless base accuracy equals
`acc_10 + (acc_100 - acc_10)·(1 - e^{-alpha})`, which is strictly *below*
`acc_100` for every finite `alpha` (it only approaches `acc_100` as
`alpha → ∞`). -/
theorem C3_amended (expf : ℚ → ℚ) (hexp : ∀ x, 0 < expf x)
    (acc_10 acc_100 alpha : ℚ) (sizes : List ℚ)
    (hlt : listMin sizes < listMax sizes) (ha : 0 < alpha)
    (hacc : acc_10 < acc_100) :
    tOf sizes (listMax sizes) = 1 ∧
    base_acc expf acc_10 acc_100 alpha (tOf sizes (listMax sizes)) =
      acc_10 + (acc_100 - acc_10) * (1 - expf (-alpha)) ∧
    base_acc expf acc_10 acc_100 alpha (tOf sizes (listMax sizes)) < acc_100 := by
  have ht : tOf sizes (listMax sizes) = 1 := by
    unfold tOf
    rw [if_pos hlt]
    have hne : listMax sizes - listMin sizes ≠ 0 := by
      have := sub_pos.mpr hlt
      exact ne_of_gt this
    field_simp
  refine ⟨ht, ?_, ?_⟩
  · rw [ht]
    unfold base_acc
    rw [mul_one]
  · rw [ht]
    unfold base_acc
    rw [mul_one]
    nlinarith [mul_pos (sub_pos.mpr hacc) (hexp (-alpha))]

/-- C3, witness: the amended statement evaluated on the concrete sweep
`[0.1, 1.0]` with `alpha = 3` and the default accuracy targets. -/
theorem C3_witness :
    tOf [(1/10 : ℚ), 1] (listMax [(1/10 : ℚ), 1]) = 1 ∧
    base_acc expfC3 (1/2) (9/10) 3 (tOf [(1/10 : ℚ), 1] (listMax [(1/10 : ℚ), 1])) =
      1/2 + (9/10 - 1/2) * (1 - expfC3 (-3)) ∧
    base_acc expfC3 (1/2) (9/10) 3 (tOf [(1/10 : ℚ), 1] (listMax [(1/10 : ℚ), 1])) < 9/10 :=
  C3_amended expfC3
    (fun x => by simp only [expfC3]; split <;> norm_num)
    (1/2) (9/10) 3 [1/10, 1]
    (by norm_num [listMin, listMax]) (by norm_num) (by norm_num)

/-- C4: for every configuration with at least one class, every row of the
synthesized probability matrix sums to 1 within `1e-9` (in exact arithmetic
it sums to 1) and every entry is non-negative, for any positive model of
`np.exp`. -/
theorem C4_probability_rows (m : RngModel) (expf : ℚ → ℚ)
    (hexp : ∀ x, 0 < expf x) (y_true : List ℕ) (dc : DifficultyConfig)
    (mp : ModelProfile) (tc : TaskConfig) (hk : 1 ≤ tc.n_classes) :
    ∀ row ∈ generate_classification_predictions m expf y_true dc mp tc,
      |row.sum - 1| ≤ 1/10^9 ∧ ∀ p ∈ row, 0 ≤ p := by
  intro row hrow
  unfold generate_classification_predictions toProb at hrow
  by_cases h2 : tc.n_classes = 2
  · rw [if_pos h2] at hrow
    obtain ⟨r, _, rfl⟩ := List.mem_map.1 hrow
    have he : 0 < expf (-(r.getD 1 0)) := hexp _
    have hd : 0 < 1 + expf (-(r.getD 1 0)) := by linarith
    have hp0 : 0 ≤ 1 / (1 + expf (-(r.getD 1 0))) := by positivity
    have hp1 : 1 / (1 + expf (-(r.getD 1 0))) ≤ 1 := by
      rw [div_le_one hd]
      linarith
    constructor
    · simp only [List.sum_cons, List.sum_nil]
      have : 1 - 1 / (1 + expf (-(r.getD 1 0))) + (1 / (1 + expf (-(r.getD 1 0))) + 0) - 1 = 0 := by
        ring
      rw [this]
      norm_num
    · intro p hp
      simp only [List.mem_cons, List.not_mem_nil, or_false] at hp
      rcases hp with h | h <;> subst h
      · linarith
      · exact hp0
  · rw [if_neg h2] at hrow
    obtain ⟨r, hr, rfl⟩ := List.mem_map.1 hrow
    have hrl : r.length = tc.n_classes := genClassLogits_row_length m y_true dc mp tc r hr
    have hrne : r ≠ [] := by
      intro hnil
      rw [hnil] at hrl
      simp at hrl
      omega
    have hexps :
        ∀ e ∈ r.map (fun x => expf (x - r.foldl max (r.headD 0))), 0 < e := by
      intro e hee
      obtain ⟨x, _, rfl⟩ := List.mem_map.1 hee
      exact hexp _
    have hene : r.map (fun x => expf (x - r.foldl max (r.headD 0))) ≠ [] := by
      simpa using hrne
    have hS : 0 < (r.map (fun x => expf (x - r.foldl max (r.headD 0)))).sum :=
      List.sum_pos _ hexps hene
    constructor
    · rw [sum_map_div, div_self (ne_of_gt hS)]
      norm_num
    · intro p hp
      obtain ⟨e, hee, rfl⟩ := List.mem_map.1 hp
      exact div_nonneg (le_of_lt (hexps e hee)) (le_of_lt hS)

/-- C4, witness: the invariant evaluated on the first row of a concrete
three-class configuration with the constant exponential model `1`. -/
theorem C4_witness :
    |((generate_classification_predictions mZero (fun _ => (1 : ℚ)) [0] dcC2 {}
        tcC4).getD 0 []).sum - 1| ≤ 1/10^9 ∧
    ∀ p ∈ (generate_classification_predictions mZero (fun _ => (1 : ℚ)) [0] dcC2 {}
        tcC4).getD 0 [], 0 ≤ p :=
  C4_probability_rows mZero (fun _ => (1 : ℚ)) (fun _ => one_pos) [0] dcC2 {} tcC4
    (by norm_num [tcC4]) _
    (by simp [generate_classification_predictions, toProb, genClassLogits,
      classRow, tcC4])

/-- C5: with an explicit integer seed, two orchestrator states constructed
from identical configuration values carry identical labels and produce
identical metric records on `simulate` — every draw is a function of
`random_state` alone, so the whole pipeline is deterministic. -/
theorem C5_determinism (m : RngModel) (expf logf sqrtf : ℚ → ℚ)
    (tc1 tc2 : TaskConfig) (dc1 dc2 : DifficultyConfig)
    (mp1 mp2 : String ⊕ ModelProfile) (rc1 rc2 : Option RegressionConfig)
    (seed : ℕ) (hseed : tc1.random_state = some seed)
    (htc : tc1 = tc2) (hdc : dc1 = dc2) (hmp : mp1 = mp2) (hrc : rc1 = rc2)
    (s1 s2 : MLSimulator)
    (h1 : mkMLSimulator m tc1 dc1 mp1 rc1 = .ok s1)
    (h2 : mkMLSimulator m tc2 dc2 mp2 rc2 = .ok s2) :
    s1.y_true = s2.y_true ∧
    simulate m expf logf sqrtf s1 = simulate m expf logf sqrtf s2 := by
  subst htc hdc hmp hrc
  rw [h1] at h2
  injection h2 with h
  subst h
  exact ⟨rfl, rfl⟩

/-- C5, witness: the determinism conclusion on a concrete seeded binary
configuration with the named profile `svm`. -/
theorem C5_witness :
    sC5.y_true = sC5.y_true ∧
    simulate mZero expfC2 (fun _ => 0) (fun _ => 0) sC5 =
      simulate mZero expfC2 (fun _ => 0) (fun _ => 0) sC5 :=
  C5_determinism mZero expfC2 (fun _ => 0) (fun _ => 0) tcC1 tcC1 {} {}
    (.inl "svm") (.inl "svm") none none 0 rfl rfl rfl rfl rfl sC5 sC5 rfl rfl

/-- C6: the binary ROC-AUC equals
`(sum of ascending-score ranks over positives − n_pos·(n_pos+1)/2) /
(n_pos·n_neg)` whenever both classes are present, and is the explicit
undefined sentinel `none` (not a raised error — the function is total)
whenever either class is absent. -/
theorem C6_binary_auc (y_true : List ℕ) (y_score : List ℚ) :
    binary_auc y_true y_score =
      if (y_true.filter (· == 1)).length = 0 ∨ (y_true.filter (· == 0)).length = 0 then
        none
      else
        some ((rankSumPositives y_true y_score
            - ((y_true.filter (· == 1)).length : ℚ)
              * (((y_true.filter (· == 1)).length : ℚ) + 1) / 2)
          / (((y_true.filter (· == 1)).length : ℚ)
              * ((y_true.filter (· == 0)).length : ℚ))) := by
  unfold binary_auc rankSumPositives
  by_cases h : (y_true.filter (· == 1)).length = 0 ∨ (y_true.filter (· == 0)).length = 0
  · simp only [if_pos h]
  · simp only [if_neg h, Nat.cast_add, Nat.cast_one]

/-- C7, counterexample: classification metrics with class count 1 do not
fail — the call returns a metrics record (tagged `multiclass`). -/
theorem C7_counterexample :
    (compute_classification_metrics (fun _ => 0) [0] [[1]] 1).head? =
      some ("task_type", .str "multiclass") := by
  rfl

/-- C7, amended: `compute_classification_metrics` performs no class-count
validation; for every class count other than 2 — in particular for
`n_classes < 2` — it takes the multiclass branch and returns a
multiclass-tagged metrics record instead of raising a configuration
error. -/
theorem C7_amended (logf : ℚ → ℚ) (y_true : List ℕ) (y_prob : List (List ℚ))
    (n_classes : ℕ) (h : n_classes < 2) :
    (compute_classification_metrics logf y_true y_prob n_classes).head? =
      some ("task_type", .str "multiclass") := by
  have h2 : ¬(n_classes = 2) := by omega
  simp only [compute_classification_metrics, if_neg h2]
  rfl

/-- C7, witness: the amended statement at class count 1. -/
theorem C7_witness :
    (compute_classification_metrics (fun _ => (0 : ℚ)) [0, 1] [[1], [1]] 1).head? =
      some ("task_type", .str "multiclass") :=
  C7_amended (fun _ => 0) [0, 1] [[1], [1]] 1 (by norm_num)

/-- C8: on a classification task with a supplied label distribution (of
nonzero total mass), `generate_labels` fails iff the distribution length
differs from `n_classes`; on a length match it renormalizes the vector —
which then sums to exactly 1 — and draws every label from that categorical
distribution. -/
theorem C8_generate_labels (m : RngModel) (tc : TaskConfig) (d : List ℚ)
    (htask : tc.task_type ≠ .regression) (hdist : tc.label_distribution = some d)
    (hsum : d.sum ≠ 0) :
    ((∃ e, generate_labels m tc = .error e) ↔ d.length ≠ tc.n_classes) ∧
    (d.length = tc.n_classes →
      generate_labels m tc =
        .ok (.classes ((List.range tc.num_samples).map fun i =>
          m.choice tc.random_state (d.map (· / d.sum)) i)) ∧
      (d.map (· / d.sum)).sum = 1) := by
  have hreg : ¬(tc.task_type = TaskType.regression) := htask
  have hgen : generate_labels m tc =
      if d.length ≠ tc.n_classes then
        .error "label_distribution length must equal n_classes"
      else
        .ok (.classes ((List.range tc.num_samples).map fun i =>
          m.choice tc.random_state (d.map (· / d.sum)) i)) := by
    simp only [generate_labels, if_neg hreg, hdist]
  by_cases hl : d.length = tc.n_classes
  · have hcond : ¬(d.length ≠ tc.n_classes) := by simpa using hl
    rw [hgen, if_neg hcond]
    constructor
    · constructor
      · rintro ⟨e, he⟩
        exact Except.noConfusion he
      · intro h
        exact absurd hl h
    · intro _
      exact ⟨rfl, by rw [sum_map_div, div_self hsum]⟩
  · rw [hgen, if_pos hl]
    constructor
    · constructor
      · intro _
        exact hl
      · intro _
        exact ⟨_, rfl⟩
    · intro h
      exact absurd h hl

/-- C8, witness: the characterization on a concrete binary task with the
distribution `[1/2, 1/2]`. -/
theorem C8_witness :
    ((∃ e, generate_labels mZero tcC8 = .error e) ↔
      ([(1 : ℚ)/2, 1/2].length ≠ tcC8.n_classes)) ∧
    ([(1 : ℚ)/2, 1/2].length = tcC8.n_classes →
      generate_labels mZero tcC8 =
        .ok (.classes ((List.range tcC8.num_samples).map fun i =>
          mZero.choice tcC8.random_state ([(1 : ℚ)/2, 1/2].map (· / [(1 : ℚ)/2, 1/2].sum)) i)) ∧
      ([(1 : ℚ)/2, 1/2].map (· / [(1 : ℚ)/2, 1/2].sum)).sum = 1) :=
  C8_generate_labels mZero tcC8 [1/2, 1/2] (by decide) rfl (by norm_num)

/-- C10: with exactly 3 classes every row offers only 3 candidate classes,
so `k = 3` top-k prediction always contains the true label and the
`top_3_accuracy` entry of the multiclass metrics record is exactly 1,
whatever the labels and probabilities are. -/
theorem C10_top3_accuracy (logf : ℚ → ℚ) (y_true : List ℕ)
    (y_prob : List (List ℚ)) (hne : y_true ≠ [])
    (hlen : y_true.length = y_prob.length)
    (hlab : ∀ t ∈ y_true, t < 3) (hrow : ∀ r ∈ y_prob, r.length = 3) :
    ("top_3_accuracy", MVal.num 1) ∈
      compute_classification_metrics logf y_true y_prob 3 := by
  have htop : top_k_accuracy y_true y_prob 3 = 1 := by
    unfold top_k_accuracy
    have hall : ∀ p ∈ y_true.zip y_prob,
        ((argsortDesc p.2).take 3).contains p.1 = true := by
      intro p hp
      obtain ⟨hp1, hp2⟩ := List.of_mem_zip hp
      have hl : p.2.length = 3 := hrow _ hp2
      have hperm : List.Perm (argsortDesc p.2) (List.range p.2.length) :=
        List.perm_insertionSort _ _
      have hlen3 : (argsortDesc p.2).length = 3 := by
        rw [hperm.length_eq, List.length_range, hl]
      rw [List.take_of_length_le (by rw [hlen3])]
      have hmem : p.1 ∈ argsortDesc p.2 := by
        rw [hperm.mem_iff, List.mem_range, hl]
        exact hlab _ hp1
      simpa using hmem
    rw [List.filter_eq_self.mpr hall]
    have hz : (y_true.zip y_prob).length = y_true.length := by
      rw [List.length_zip, hlen, Nat.min_self]
    rw [hz]
    have hn : (y_true.length : ℚ) ≠ 0 := by
      simpa using hne
    exact div_self hn
  have h32 : (3 : ℕ) ≠ 2 := by norm_num
  simp only [compute_classification_metrics, if_neg h32, htop]
  simp

/-- C10, witness: `top_3_accuracy = 1` on a concrete two-sample three-class
input. -/
theorem C10_witness :
    ("top_3_accuracy", MVal.num 1) ∈
      compute_classification_metrics (fun _ => (0 : ℚ)) [0, 1]
        [[1/2, 1/4, 1/4], [1/3, 1/3, 1/3]] 3 :=
  C10_top3_accuracy (fun _ => 0) [0, 1] [[1/2, 1/4, 1/4], [1/3, 1/3, 1/3]]
    (by simp) (by simp) (by decide) (by simp)

/-- A successful `exceptMap` relates inputs and outputs pointwise. -/
theorem exceptMap_ok_forall2 {α β : Type} (f : α → Except String β) :
    ∀ (l : List α) (bs : List β), exceptMap f l = .ok bs →
      List.Forall₂ (fun a b => f a = .ok b) l bs := by
  intro l
  induction l with
  | nil =>
      intro bs h
      unfold exceptMap at h
      injection h with h
      subst h
      exact List.Forall₂.nil
  | cons a as ih =>
      intro bs h
      unfold exceptMap at h
      cases hfa : f a with
      | error e => rw [hfa] at h; exact Except.noConfusion h
      | ok b =>
          rw [hfa] at h
          cases hrest : exceptMap f as with
          | error e => rw [hrest] at h; exact Except.noConfusion h
          | ok bs' =>
              rw [hrest] at h
              injection h with h
              subst h
              exact List.Forall₂.cons hfa (ih bs' hrest)

/-- Every right element of a `Forall₂` is related to some left element. -/
theorem forall2_mem_right {α β : Type} {R : α → β → Prop}
    {l1 : List α} {l2 : List β} (h : List.Forall₂ R l1 l2) :
    ∀ b ∈ l2, ∃ a ∈ l1, R a b := by
  induction h with
  | nil => intro b hb; cases hb
  | cons hab _ ih =>
      intro b hb
      rcases List.mem_cons.1 hb with h | h
      · exact ⟨_, List.mem_cons_self _ _, h ▸ hab⟩
      · obtain ⟨a, ha, hr⟩ := ih b h
        exact ⟨a, List.mem_cons_of_mem _ ha, hr⟩

/-- Anatomy of one successful inner run of `scan_difficulty`. -/
theorem scanRun_ok (m : RngModel) (expf logf sqrtf : ℚ → ℚ) (tc : TaskConfig)
    (dc : DifficultyConfig) (model_name : String) (v : ℚ) (run : ℕ)
    (b : ℚ × ℕ × MetricsRecord)
    (h : (do
        let sim ← mkMLSimulator m (withSeed tc run) dc (.inl model_name) none
        pure (v, run, simulate m expf logf sqrtf sim) :
        Except String (ℚ × ℕ × MetricsRecord)) = .ok b) :
    b.1 = v ∧ ∃ sim,
      mkMLSimulator m (withSeed tc run) dc (.inl model_name) none = .ok sim ∧
      b.2.2 = simulate m expf logf sqrtf sim := by
  cases hm : mkMLSimulator m (withSeed tc run) dc (.inl model_name) none with
  | error e =>
      rw [hm] at h
      exact Except.noConfusion h
  | ok sim =>
      rw [hm] at h
      injection h with h
      subst h
      exact ⟨rfl, sim, rfl, rfl⟩

/-- A successfully constructed orchestrator state carries the configuration
it was built from and labels produced by `generate_labels`. -/
theorem mkMLSimulator_ok (m : RngModel) (tc : TaskConfig)
    (dc : DifficultyConfig) (mp : String ⊕ ModelProfile)
    (rc : Option RegressionConfig) (s : MLSimulator)
    (h : mkMLSimulator m tc dc mp rc = .ok s) :
    s.task_config = tc ∧ generate_labels m tc = .ok s.y_true := by
  unfold mkMLSimulator at h
  cases hp : resolveProfile mp with
  | error e => rw [hp] at h; exact Except.noConfusion h
  | ok p =>
      rw [hp] at h
      cases hy : generate_labels m tc with
      | error e => rw [hy] at h; exact Except.noConfusion h
      | ok y =>
          rw [hy] at h
          injection h with h
          subst h
          exact ⟨rfl, rfl⟩

/-- Classification label generation yields class labels. -/
theorem generate_labels_classes (m : RngModel) (tc : TaskConfig)
    (hnr : ¬(tc.task_type = TaskType.regression)) (y : Labels)
    (h : generate_labels m tc = .ok y) : ∃ l, y = .classes l := by
  unfold generate_labels at h
  rw [if_neg hnr] at h
  split at h
  · injection h with h
    exact ⟨_, h.symm⟩
  · split at h
    · exact Except.noConfusion h
    · injection h with h
      exact ⟨_, h.symm⟩

/-- Regression label generation yields continuous targets. -/
theorem generate_labels_reals (m : RngModel) (tc : TaskConfig)
    (hr : tc.task_type = TaskType.regression) (y : Labels)
    (h : generate_labels m tc = .ok y) : ∃ l, y = .reals l := by
  unfold generate_labels at h
  rw [if_pos hr] at h
  injection h with h
  exact ⟨_, h.symm⟩

/-- `simulate` on a classification state reduces to the classification
branch. -/
theorem simulate_classification (m : RngModel) (expf logf sqrtf : ℚ → ℚ)
    (s : MLSimulator) (l : List ℕ)
    (hnr : ¬(s.task_config.task_type = TaskType.regression))
    (hy : s.y_true = .classes l) :
    simulate m expf logf sqrtf s =
      compute_classification_metrics logf l
        (generate_classification_predictions m expf l s.difficulty
          s.model_profile s.task_config)
        s.task_config.n_classes := by
  unfold simulate
  cases htt : s.task_config.task_type with
  | regression => exact absurd htt hnr
  | binary => rw [hy]
  | multiclass => rw [hy]

/-- `simulate` on a regression state reduces to the regression branch. -/
theorem simulate_regression (m : RngModel) (expf logf sqrtf : ℚ → ℚ)
    (s : MLSimulator) (l : List ℚ)
    (hr : s.task_config.task_type = TaskType.regression)
    (hy : s.y_true = .reals l) :
    simulate m expf logf sqrtf s =
      compute_regression_metrics sqrtf l
        (generate_regression_predictions m l s.difficulty s.model_profile
          s.task_config s.reg_config) := by
  unfold simulate
  rw [hr, hy]

/-- `numericNames` over a numeric entry. -/
theorem numericNames_cons_num (name : String) (q : ℚ) (rest : MetricsRecord) :
    numericNames ((name, MVal.num q) :: rest) = name :: numericNames rest := by
  simp [numericNames, List.filterMap_cons]

/-- `numericNames` over an entry that is numeric-or-NaN. -/
theorem numericNames_cons_opt (name : String) (o : Option ℚ)
    (rest : MetricsRecord) :
    numericNames
        ((name, match o with | some a => MVal.num a | none => MVal.nan) :: rest) =
      name :: numericNames rest := by
  cases o <;> simp [numericNames, List.filterMap_cons]

/-- `numericNames` over a string tag. -/
theorem numericNames_cons_str (name s : String) (rest : MetricsRecord) :
    numericNames ((name, MVal.str s) :: rest) = numericNames rest := by
  simp [numericNames, List.filterMap_cons]

/-- Numeric column names of a classification metrics record. -/
theorem numericNames_classification (logf : ℚ → ℚ) (y : List ℕ)
    (probs : List (List ℚ)) (k : ℕ) :
    numericNames (compute_classification_metrics logf y probs k) =
      if k = 2 then
        ["accuracy", "precision", "recall", "f1", "roc_auc", "pr_auc", "logloss"]
      else
        ["accuracy", "macro_f1", "weighted_f1", "logloss", "top_3_accuracy"] := by
  by_cases h2 : k = 2
  · rw [if_pos h2]
    subst h2
    simp only [compute_classification_metrics, reduceIte]
    rw [numericNames_cons_str, numericNames_cons_num, numericNames_cons_num,
      numericNames_cons_num, numericNames_cons_num, numericNames_cons_opt,
      numericNames_cons_num, numericNames_cons_num]
    rfl
  · rw [if_neg h2]
    simp only [compute_classification_metrics, if_neg h2]
    rw [numericNames_cons_str, numericNames_cons_num, numericNames_cons_num,
      numericNames_cons_num, numericNames_cons_num, numericNames_cons_num]
    rfl

/-- Numeric column names of a regression metrics record. -/
theorem numericNames_regression (sqrtf : ℚ → ℚ) (y yp : List ℚ) :
    numericNames (compute_regression_metrics sqrtf y yp) =
      ["rmse", "mae", "r2"] := by
  simp [compute_regression_metrics, numericNames]

/-- `withSeed` changes only the seed, so the record columns are unchanged. -/
theorem metricNumericNames_withSeed (tc : TaskConfig) (run : ℕ) :
    metricNumericNames (withSeed tc run) = metricNumericNames tc := rfl

/-- The numeric column names of any record produced by a successfully
constructed simulator are `metricNumericNames` of its task configuration. -/
theorem simulate_numericNames (m : RngModel) (expf logf sqrtf : ℚ → ℚ)
    (tc : TaskConfig) (dc : DifficultyConfig) (mp : String ⊕ ModelProfile)
    (rc : Option RegressionConfig) (s : MLSimulator)
    (h : mkMLSimulator m tc dc mp rc = .ok s) :
    numericNames (simulate m expf logf sqrtf s) = metricNumericNames tc := by
  obtain ⟨htc, hy⟩ := mkMLSimulator_ok m tc dc mp rc s h
  by_cases hr : tc.task_type = TaskType.regression
  · obtain ⟨l, hl⟩ := generate_labels_reals m tc hr s.y_true hy
    rw [simulate_regression m expf logf sqrtf s l (by rw [htc]; exact hr) hl,
      numericNames_regression]
    unfold metricNumericNames
    rw [hr]
  · obtain ⟨l, hl⟩ := generate_labels_classes m tc hr s.y_true hy
    rw [simulate_classification m expf logf sqrtf s l (by rw [htc]; exact hr) hl,
      numericNames_classification, htc]
    unfold metricNumericNames
    cases htt : tc.task_type with
    | regression => exact absurd htt hr
    | binary => rfl
    | multiclass => rfl

/-- Anatomy of one successful per-value computation of `scan_difficulty`. -/
theorem scanValue_shape (m : RngModel) (expf logf sqrtf : ℚ → ℚ)
    (tc : TaskConfig) (model_name param : String)
    (baseDc : DifficultyConfig) (n_runs : ℕ) (v : ℚ)
    (rec : List (ℚ × ℕ × MetricsRecord))
    (h : (do
        let dc ← overlayDifficulty baseDc param v
        exceptMap (fun run => do
            let sim ← mkMLSimulator m (withSeed tc run) dc (.inl model_name) none
            pure (v, run, simulate m expf logf sqrtf sim)) (List.range n_runs)) = .ok rec) :
    rec.map Prod.fst = List.replicate n_runs v ∧
    ∀ b ∈ rec, ∃ run dc sim,
      overlayDifficulty baseDc param v = .ok dc ∧
      mkMLSimulator m (withSeed tc run) dc (.inl model_name) none = .ok sim ∧
      b.2.2 = simulate m expf logf sqrtf sim := by
  cases ho : overlayDifficulty baseDc param v with
  | error e =>
      rw [ho] at h
      exact Except.noConfusion h
  | ok dc =>
      rw [ho] at h
      -- h : exceptMap _ (List.range n_runs) = .ok rec
      have hf2 := exceptMap_ok_forall2 _ _ _ h
      have hlen : rec.length = n_runs := by
        rw [← hf2.length_eq, List.length_range]
      constructor
      · rw [List.eq_replicate_iff]
        constructor
        · rw [List.length_map, hlen]
        · intro x hx
          obtain ⟨b, hb, rfl⟩ := List.mem_map.1 hx
          obtain ⟨run, _, hrun⟩ := forall2_mem_right hf2 b hb
          exact (scanRun_ok m expf logf sqrtf tc dc model_name v run b hrun).1
      · intro b hb
        obtain ⟨run, _, hrun⟩ := forall2_mem_right hf2 b hb
        obtain ⟨-, sim, hmk, hsim⟩ :=
          scanRun_ok m expf logf sqrtf tc dc model_name v run b hrun
        exact ⟨run, dc, sim, rfl, hmk, hsim⟩

/-- Projecting the swept values out of the flat run list. -/
theorem flatten_map_fst (n : ℕ) {values : List ℚ}
    {recs : List (List (ℚ × ℕ × MetricsRecord))}
    (h : List.Forall₂ (fun v rec => rec.map Prod.fst = List.replicate n v)
      values recs) :
    recs.flatten.map Prod.fst = (values.map (List.replicate n)).flatten := by
  induction h with
  | nil => simp
  | cons hab _ ih => simp [ih, hab]

/-- Deduplicating a flattened list of nonempty constant blocks over distinct
values recovers the values. -/
theorem dedup_flatten_replicate (n : ℕ) (hn : 1 ≤ n) :
    ∀ (values : List ℚ), values.Nodup →
      ((values.map (List.replicate n)).flatten).dedup = values := by
  intro values
  induction values with
  | nil => intro _; simp
  | cons v vs ih =>
      intro hnd
      have hv : v ∉ vs := (List.nodup_cons.1 hnd).1
      have hvs : vs.Nodup := (List.nodup_cons.1 hnd).2
      have hrest : v ∉ (vs.map (List.replicate n)).flatten := by
        intro hmem
        obtain ⟨l, hl, hvl⟩ := List.mem_flatten.1 hmem
        obtain ⟨u, hu, rfl⟩ := List.mem_map.1 hl
        obtain ⟨-, rfl⟩ := List.mem_replicate.1 hvl
        exact hv hu
      have hsplit : ((v :: vs).map (List.replicate n)).flatten =
          List.replicate n v ++ (vs.map (List.replicate n)).flatten := by simp
      rw [hsplit]
      have key : ∀ (k : ℕ), 1 ≤ k →
          (List.replicate k v ++ (vs.map (List.replicate n)).flatten).dedup =
            v :: ((vs.map (List.replicate n)).flatten).dedup := by
        intro k
        induction k with
        | zero => omega
        | succ k ihk =>
            intro _
            by_cases hk0 : k = 0
            · subst hk0
              simp only [List.replicate_succ, List.replicate_zero,
                List.nil_append, List.cons_append]
              exact List.dedup_cons_of_not_mem hrest
            · have hk1 : 1 ≤ k := Nat.one_le_iff_ne_zero.2 hk0
              rw [List.replicate_succ, List.cons_append]
              have hin : v ∈ List.replicate k v ++ (vs.map (List.replicate n)).flatten :=
                List.mem_append_left _ (List.mem_replicate.2 ⟨hk0, rfl⟩)
              rw [List.dedup_cons_of_mem hin, ihk hk1]
      rw [key n hn, ih hvs]

/-- Building-block equalities for projections of constructed triples. -/
theorem map_fst_map_build {α β γ : Type} (l : List α) (f : α → β) (g : α → γ) :
    (l.map (fun v => (v, f v, g v))).map (fun r => r.1) = l := by
  induction l with
  | nil => rfl
  | cons a t ih => simp_all

/-- Projecting the first components of constructed pairs. -/
theorem map_fst_map_pair {α β γ : Type} (l : List α) (f : α → β) (g : α → γ) :
    (l.map (fun c => (f c, g c))).map Prod.fst = l.map f := by
  induction l with
  | nil => rfl
  | cons a t ih => simp_all

/-- Structure of the `scan_difficulty` aggregation: one row per distinct
key, keys sorted, and one `_mean`/`_std` column per numeric column of the
first record. -/
theorem aggScan_structure (sqrtf : ℚ → ℚ)
    (rows : List (ℚ × ℕ × MetricsRecord)) (keys0 : List ℚ)
    (cols : List String) (hd : ℚ × ℕ × MetricsRecord)
    (hhead : rows.head? = some hd) (hcols : numericNames hd.2.2 = cols)
    (hded : (rows.map (·.1)).dedup = keys0) :
    (aggScan sqrtf rows).length = keys0.length ∧
    (aggScan sqrtf rows).map (·.1) = List.insertionSort (· ≤ ·) keys0 ∧
    ∀ row ∈ aggScan sqrtf rows,
      row.2.1.map Prod.fst = cols.map (· ++ "_mean") ∧
      row.2.2.map Prod.fst = cols.map (· ++ "_std") := by
  unfold aggScan
  rw [hhead]
  simp only [hded]
  rw [hcols]
  refine ⟨?_, ?_, ?_⟩
  · rw [List.length_map, List.length_insertionSort]
  · exact map_fst_map_build _ _ _
  · intro row hrow
    obtain ⟨v, _, rfl⟩ := List.mem_map.1 hrow
    exact ⟨map_fst_map_pair _ _ _, map_fst_map_pair _ _ _⟩

/-- C9: for distinct, non-empty sweep values and at least one run per value,
a successful `scan_difficulty` returns one row per supplied value, rows
strictly ascending in the swept value, each row carrying a `<metric>_mean`
and a `<metric>_std` column for every numeric metric of the simulated
records; when a base seed is given, run `r` uses seed `base + r`. -/
theorem C9_scan_difficulty (m : RngModel) (expf logf sqrtf : ℚ → ℚ)
    (tc : TaskConfig) (model_name param : String) (values : List ℚ)
    (baseDc : DifficultyConfig) (n_runs : ℕ) (out : List ScanRow)
    (hnodup : values.Nodup) (hne : values ≠ []) (hruns : 1 ≤ n_runs)
    (hok : scan_difficulty m expf logf sqrtf tc model_name param values
      baseDc n_runs = .ok out) :
    out.length = values.length ∧
    (out.map (·.1)).Sorted (· < ·) ∧
    (∀ row ∈ out,
      row.2.1.map Prod.fst = (metricNumericNames tc).map (· ++ "_mean") ∧
      row.2.2.map Prod.fst = (metricNumericNames tc).map (· ++ "_std")) ∧
    (∀ base run, tc.random_state = some base →
      (withSeed tc run).random_state = some (base + run)) := by
  unfold scan_difficulty at hok
  cases hr : exceptMap (fun v => do
      let dc ← overlayDifficulty baseDc param v
      exceptMap (fun run => do
          let sim ← mkMLSimulator m (withSeed tc run) dc (.inl model_name) none
          pure (v, run, simulate m expf logf sqrtf sim)) (List.range n_runs))
    values with
  | error e =>
      rw [hr] at hok
      exact Except.noConfusion hok
  | ok recs =>
      rw [hr] at hok
      injection hok with hok
      have hf2 := exceptMap_ok_forall2 _ _ _ hr
      have hshape : List.Forall₂
          (fun v rec => rec.map Prod.fst = List.replicate n_runs v) values recs :=
        hf2.imp (fun v rec hab =>
          (scanValue_shape m expf logf sqrtf tc model_name param baseDc n_runs
            v rec hab).1)
      have hfst : recs.flatten.map Prod.fst =
          (values.map (List.replicate n_runs)).flatten :=
        flatten_map_fst n_runs hshape
      have hded : (recs.flatten.map (·.1)).dedup = values := by
        rw [show (recs.flatten.map (·.1)) = recs.flatten.map Prod.fst from rfl, hfst]
        exact dedup_flatten_replicate n_runs hruns values hnodup
      have hnames : ∀ b ∈ recs.flatten,
          numericNames b.2.2 = metricNumericNames tc := by
        intro b hb
        obtain ⟨inner, hinner, hbin⟩ := List.mem_flatten.1 hb
        obtain ⟨v, _, hFv⟩ := forall2_mem_right hf2 inner hinner
        obtain ⟨-, hmem⟩ :=
          scanValue_shape m expf logf sqrtf tc model_name param baseDc n_runs
            v inner hFv
        obtain ⟨run, dc, sim, -, hmk, hsim⟩ := hmem b hbin
        rw [hsim,
          simulate_numericNames m expf logf sqrtf (withSeed tc run) dc
            (.inl model_name) none sim hmk,
          metricNumericNames_withSeed]
      have hvne : values ≠ [] := hne
      obtain ⟨v0, vs0, hv0⟩ : ∃ v0 vs0, values = v0 :: vs0 := by
        cases values with
        | nil => exact absurd rfl hvne
        | cons a l => exact ⟨a, l, rfl⟩
      have hvmem : v0 ∈ recs.flatten.map Prod.fst := by
        rw [hfst, hv0]
        exact List.mem_flatten.2 ⟨List.replicate n_runs v0,
          List.mem_map_of_mem _ (List.mem_cons_self _ _),
          List.mem_replicate.2 ⟨by omega, rfl⟩⟩
      obtain ⟨b0, hb0, -⟩ := List.mem_map.1 hvmem
      obtain ⟨hd, hhead⟩ : ∃ hd, recs.flatten.head? = some hd := by
        cases hfl : recs.flatten with
        | nil => rw [hfl] at hb0; cases hb0
        | cons a l => exact ⟨a, rfl⟩
      have hdmem : hd ∈ recs.flatten := List.mem_of_mem_head? hhead
      have hcols : numericNames hd.2.2 = metricNumericNames tc := hnames hd hdmem
      obtain ⟨hl1, hl2, hl3⟩ :=
        aggScan_structure sqrtf recs.flatten values (metricNumericNames tc)
          hd hhead hcols hded
      subst hok
      refine ⟨hl1, ?_, hl3, ?_⟩
      · rw [hl2]
        have hsorted : List.Sorted (· ≤ ·) (List.insertionSort (· ≤ ·) values) :=
          List.sorted_insertionSort _ _
        have hnd : (List.insertionSort (· ≤ ·) values).Nodup :=
          ((List.perm_insertionSort _ _).nodup_iff).2 hnodup
        exact hsorted.lt_of_le hnd
      · intro base run h
        simp [withSeed, h]

/-- C9, witness: the scan-structure conclusions on a concrete sweep of two
separability values with one run each. -/
theorem C9_witness :
    scanC9.length = [(1 : ℚ), 2].length ∧
    (scanC9.map (·.1)).Sorted (· < ·) ∧
    (∀ row ∈ scanC9,
      row.2.1.map Prod.fst = (metricNumericNames tcC1).map (· ++ "_mean") ∧
      row.2.2.map Prod.fst = (metricNumericNames tcC1).map (· ++ "_std")) ∧
    (∀ base run, tcC1.random_state = some base →
      (withSeed tcC1 run).random_state = some (base + run)) :=
  C9_scan_difficulty mZero (fun _ => 1) (fun _ => 0) (fun _ => 0) tcC1 "svm"
    "separability" [1, 2] {} 1 scanC9
    (by norm_num [List.nodup_cons]) (by simp) (by norm_num) rfl

end MLSim
